import Mathlib

/-!
Verification development for the parseval repository: a shallow embedding of
the expression tokenizers, the infix-to-prefix converter, the AST builder,
the AST traversal and substitution methods, the dialect generators and the
ExprParser driver, together with theorems settling the frozen claims.

Source files embedded:
  src/src/parsers/comsol_parser.py  (tokenization, precedence, infix_to_postfix,
    infix_to_prefix, class AST, generate_spice, parse_comsol)
  src/parse_spice.py                (the SPICE-variant tokenization with its
    handling of the ** operator and the global variable list)
  src/src/expr_parser.py            (class ExprParser)
Machine integers play no role; all data is strings, characters and lists.
Fallible code (Python IndexError / use of a None value) is modelled with
Option / Except.
-/

/-- A token, mirroring the three token classes Variable, Operator and
Paranthesis of comsol_parser.py / parse_spice.py.  Operator and Paranthesis
hold the single character the source stores as a one-character string. -/
inductive Tok where
  | Variable : String → Tok
  | Operator : Char → Tok
  | Paranthesis : Char → Tok
deriving DecidableEq, Repr

/-- Mirrors is_operator from the source. -/
def isOpTok : Tok → Bool
  | .Operator _ => true
  | _ => false

/-- Mirrors is_paranthesis from the source. -/
def isParTok : Tok → Bool
  | .Paranthesis _ => true
  | _ => false

/-- Embeds the function precedence of comsol_parser.py lines 98-110 (the copy
in parse_spice.py is identical): operators map to 1, 2 or 3 and every other
token, and every unknown operator character, maps to 0. -/
def precedence : Tok → Nat
  | .Operator c =>
    if c = '-' ∨ c = '+' then 1
    else if c = '*' ∨ c = '/' then 2
    else if c = '^' then 3
    else 0
  | _ => 0

/-- The unary-minus wrapping of an accumulated operand: the source prepends
a literal parenthesis pair when the accumulated text starts with a minus
(crt_token[0] == the minus sign). -/
def wrapNeg (s : String) : String :=
  if s.data.head? = some '-' then "(" ++ s ++ ")" else s

/-- Emission of the accumulated operand with the unary-minus wrapping (the
operator and close-parenthesis branches of both tokenizers). -/
def emitWrapped (crt : String) : List Tok :=
  if crt = "" then [] else [.Variable (wrapNeg crt)]

/-- Emission of the accumulated operand without wrapping (the
open-parenthesis branch of both tokenizers appends the raw text). -/
def emitPlain (crt : String) : List Tok :=
  if crt = "" then [] else [.Variable crt]

/-- One-pass loop of the tokenization function of comsol_parser.py
(lines 36-95), on the characters after the optional leading unary minus.
The list argument is the remaining input; crt is the operand being
accumulated; tokens is the output so far.  The unconditional read of
s[i+1] after an opening parenthesis is the single partial access: it is
modelled by returning none when the parenthesis ends the input.  The Nat
argument is structural fuel only: every iteration consumes at least one
input character, so fuel equal to the input length never runs out. -/
def tokLoopF (fuel : Nat) (l : List Char) (crt : String) (tokens : List Tok) :
    Option (List Tok) :=
  match fuel, l with
  | _, [] => some tokens
  | 0, _ :: _ => none
  | f + 1, c :: rest =>
    if c = '*' ∨ c = '^' ∨ c = '+' ∨ c = '-' ∨ c = '/' then
      tokLoopF f rest "" (tokens ++ emitWrapped crt ++ [.Operator c])
    else if c = '(' then
      match rest with
      | [] => none
      | d :: rest2 =>
        if d = '-' then tokLoopF f rest2 "-" (tokens ++ emitPlain crt ++ [.Paranthesis '('])
        else tokLoopF f rest "" (tokens ++ emitPlain crt ++ [.Paranthesis '('])
    else if c = ')' then
      tokLoopF f rest "" (tokens ++ emitWrapped crt ++ [.Paranthesis ')'])
    else if c.toNat ≤ 0x20 then
      tokLoopF f rest crt tokens
    else
      match rest with
      | [] => some (tokens ++ [.Variable (crt.push c)])
      | _ => tokLoopF f rest (crt.push c) tokens

/-- The comsol_parser.py tokenization loop with its fuel instantiated. -/
def tokLoop (l : List Char) (crt : String) (tokens : List Tok) : Option (List Tok) :=
  tokLoopF l.length l crt tokens

/-- Embeds tokenization of comsol_parser.py on a character list.  When the
string starts with a minus the source consumes it into crt_token, increments
the index and then falls through to the ordinary branch chain in the same
iteration, so the single-character input consisting of the minus alone makes
the source read s[1] and fail with an index error (modelled as none). -/
def tokenizationChars : List Char → Option (List Tok)
  | [] => some []
  | c :: rest =>
    if c = '-' then
      match rest with
      | [] => none
      | _ => tokLoop rest "-" []
    else tokLoop (c :: rest) "" []

/-- Embeds tokenization of comsol_parser.py lines 36-95. -/
def tokenization (s : String) : Option (List Tok) :=
  tokenizationChars s.data

/-- One-pass loop of the tokenization function of parse_spice.py
(lines 179-247).  It differs from the comsol_parser.py loop in the
star branch, which recognizes a double star (with a guarded lookahead) and
emits the canonical caret operator, and in accumulating the global
variable_list (vars): the operand text is appended to it, unwrapped, in the
operator and parenthesis branches but not in the end-of-string branch. -/
def tokLoopSF (fuel : Nat) (l : List Char) (crt : String) (tokens : List Tok)
    (vars : List String) : Option (List Tok × List String) :=
  match fuel, l with
  | _, [] => some (tokens, vars)
  | 0, _ :: _ => none
  | f + 1, c :: rest =>
    if c = '*' then
      match rest with
      | [] =>
        some (tokens ++ emitWrapped crt ++ [.Operator '*'],
          if crt = "" then vars else vars ++ [crt])
      | d :: rest2 =>
        if d = '*' then
          tokLoopSF f rest2 "" (tokens ++ emitWrapped crt ++ [.Operator '^'])
            (if crt = "" then vars else vars ++ [crt])
        else
          tokLoopSF f rest "" (tokens ++ emitWrapped crt ++ [.Operator '*'])
            (if crt = "" then vars else vars ++ [crt])
    else if c = '+' ∨ c = '-' ∨ c = '/' then
      tokLoopSF f rest "" (tokens ++ emitWrapped crt ++ [.Operator c])
        (if crt = "" then vars else vars ++ [crt])
    else if c = '(' then
      match rest with
      | [] => none
      | d :: rest2 =>
        if d = '-' then
          tokLoopSF f rest2 "-" (tokens ++ emitPlain crt ++ [.Paranthesis '('])
            (if crt = "" then vars else vars ++ [crt])
        else
          tokLoopSF f rest "" (tokens ++ emitPlain crt ++ [.Paranthesis '('])
            (if crt = "" then vars else vars ++ [crt])
    else if c = ')' then
      tokLoopSF f rest "" (tokens ++ emitWrapped crt ++ [.Paranthesis ')'])
        (if crt = "" then vars else vars ++ [crt])
    else if c.toNat ≤ 0x20 then
      tokLoopSF f rest crt tokens vars
    else
      match rest with
      | [] => some (tokens ++ [.Variable (crt.push c)], vars)
      | _ => tokLoopSF f rest (crt.push c) tokens vars

/-- The parse_spice.py tokenization loop with its fuel instantiated. -/
def tokLoopS (l : List Char) (crt : String) (tokens : List Tok) (vars : List String) :
    Option (List Tok × List String) :=
  tokLoopSF l.length l crt tokens vars

/-- Embeds tokenization of parse_spice.py on a character list.  The
leading-minus test there is the head of an elif chain, so after consuming a
leading minus the iteration ends and the bottom increment advances the index
a second time: the character at position 1 is skipped entirely, and on the
single-character minus input the loop simply ends with the accumulated text
dropped. -/
def tokenizationSChars : List Char → Option (List Tok × List String)
  | [] => some ([], [])
  | c :: rest =>
    if c = '-' then
      match rest with
      | [] => some ([], [])
      | _ :: rest2 => tokLoopS rest2 "-" [] []
    else tokLoopS (c :: rest) "" [] []

/-- Embeds tokenization of parse_spice.py lines 179-247, returning the token
list together with the accumulated global variable_list. -/
def tokenizationS (s : String) : Option (List Tok × List String) :=
  tokenizationSChars s.data

/-- Flip of a single parenthesis token, as done in place by the loop of
infix_to_prefix (comsol_parser.py lines 170-175): an opening parenthesis
becomes a closing one and any other parenthesis character becomes an
opening one; non-parenthesis tokens are untouched. -/
def flipPar : Tok → Tok
  | .Paranthesis c => .Paranthesis (if c = '(' then ')' else '(')
  | t => t

/-- The close-parenthesis inner loop of infix_to_postfix (lines 136-139):
pop tokens to the output while the stack top is a non-opening parenthesis
or an operator, then discard one further stack element.  Reading the top of
an empty stack is the index error of the source, modelled as none. -/
def popClose : List Tok → List Tok → Option (List Tok × List Tok)
  | [], _ => none
  | t :: stack, out =>
    if ((match t with | .Paranthesis c => decide (c ≠ '(') | _ => false) || isOpTok t) then
      popClose stack (out ++ [t])
    else some (stack, out)

/-- The operator inner loop of infix_to_postfix (lines 144-151): pop stack
elements to the output while the condition on the stack top holds.  Reading
the top of an empty stack is an index error, modelled as none. -/
def popOps (cond : Tok → Bool) : List Tok → List Tok → Option (List Tok × List Tok)
  | [], _ => none
  | t :: stack, out =>
    if cond t then popOps cond stack (out ++ [t]) else some (t :: stack, out)

/-- The main loop of infix_to_postfix (comsol_parser.py lines 126-156; the
copy in parse_spice.py is identical), iterating over the wrapped token list
with an explicit stack and output.  The final clause flushes the remaining
stack into the output.  The caret operator pops stack operators of equal or
lower precedence; every other operator pops only strictly lower precedence,
exactly as the source's two while-loops do. -/
def postLoop : List Tok → List Tok → List Tok → Option (List Tok)
  | [], stack, out => some (out ++ stack)
  | t :: restT, stack, out =>
    match t with
    | .Variable _ => postLoop restT stack (out ++ [t])
    | .Paranthesis c =>
      if c = '(' then postLoop restT (t :: stack) out
      else
        match popClose stack out with
        | none => none
        | some (st2, out2) => postLoop restT st2 out2
    | .Operator c =>
      match stack with
      | [] => none
      | top :: _ =>
        if isOpTok top || isParTok top then
          match popOps (fun tk =>
              if c = '^' then decide (precedence (Tok.Operator c) ≤ precedence tk)
              else decide (precedence (Tok.Operator c) < precedence tk)) stack out with
          | none => none
          | some (st2, out2) => postLoop restT (Tok.Operator c :: st2) out2
        else postLoop restT stack out

/-- Embeds infix_to_postfix (comsol_parser.py lines 113-157): the token list
is wrapped in an outer parenthesis pair and run through the stack loop. -/
def infix_to_postfix_conv (token_list : List Tok) : Option (List Tok) :=
  postLoop ([Tok.Paranthesis '('] ++ token_list ++ [Tok.Paranthesis ')']) [] []

/-- Embeds infix_to_prefix (comsol_parser.py lines 160-180): reverse the
list, flip every parenthesis token, run infix_to_postfix and reverse the
result.  This is the pure value-level reading; the aliasing side effect on
the caller's tokens is modelled separately by infix_to_prefix_refs. -/
def infix_to_prefix_conv (token_list : List Tok) : Option (List Tok) :=
  (infix_to_postfix_conv ((token_list.reverse).map flipPar)).map List.reverse

/-- The abstract syntax tree of comsol_parser.py / parse_spice.py: a leaf
holds a Variable token's text; a caret node has base and power children;
every other operator node has left and right children.  The source encodes
the two interior shapes through optional attributes; the shape is
determined by the operator exactly as here. -/
inductive AST where
  | leaf : String → AST
  | pow : AST → AST → AST
  | node : Char → AST → AST → AST
deriving DecidableEq, Repr

/-- Embeds AST.getAST (comsol_parser.py lines 234-257), which consumes a
prefix token list front to back.  The Nat argument is structural fuel;
fuel equal to the list length never runs out because every call consumes at
least one token.  The source builds a node with a missing (None) child when
the list runs out early, and a childless node for a parenthesis token; any
later use of such a tree fails, so both situations are modelled as a
construction failure (none). -/
def getASTF (fuel : Nat) (l : List Tok) : Option (AST × List Tok) :=
  match fuel, l with
  | _, [] => none
  | 0, _ :: _ => none
  | f + 1, t :: rest =>
    match t with
    | .Variable s => some (.leaf s, rest)
    | .Operator c =>
      if c = '^' then
        match getASTF f rest with
        | none => none
        | some (b, r1) =>
          match getASTF f r1 with
          | none => none
          | some (p, r2) => some (.pow b p, r2)
      else
        match getASTF f rest with
        | none => none
        | some (lc, r1) =>
          match getASTF f r1 with
          | none => none
          | some (rc, r2) => some (.node c lc rc, r2)
    | .Paranthesis _ => none

/-- AST.getAST with its fuel instantiated; the leftover of the consumed
list is returned alongside the tree (the source pops from a shared list
and simply leaves any remainder unread). -/
def getAST (l : List Tok) : Option (AST × List Tok) :=
  getASTF l.length l

/-- Embeds the list branch of AST.__init__ (comsol_parser.py lines 188-198):
convert the token list to prefix order, build the tree, and fail if the
builder returns None (the source then crashes copying None.__dict__). -/
def AST.ofTokens (token_list : List Tok) : Option AST :=
  match infix_to_prefix_conv token_list with
  | none => none
  | some pf =>
    match getAST pf with
    | none => none
    | some (a, _) => some a

/-- Embeds AST.replace_token (comsol_parser.py lines 210-231): every leaf
whose text equals match is rewritten to replace; interior nodes recurse
into both children.  The source mutates in place; the model returns the
updated tree. -/
def AST.replace_token : AST → String → String → AST
  | .leaf s, m, r => if s = m then .leaf r else .leaf s
  | .pow b p, m, r => .pow (b.replace_token m r) (p.replace_token m r)
  | .node c lc rc, m, r => .node c (lc.replace_token m r) (rc.replace_token m r)

/-- Whether a subtree's root token is an Operator token (the source's
is_operator(child.token) checks in inorderAST). -/
def isOpNode : AST → Bool
  | .leaf _ => false
  | _ => true

/-- The precedence of a subtree's root token, as computed by
precedence(child.token) in inorderAST. -/
def astPrec : AST → Nat
  | .leaf _ => 0
  | .pow _ _ => 3
  | .node c _ _ => precedence (Tok.Operator c)

/-- Embeds AST.inorderAST (comsol_parser.py lines 260-327): a leaf yields
its Variable token; a caret node parenthesizes any operator-rooted child;
any other operator node parenthesizes a child only when the child's root
token is an operator of strictly lower precedence. -/
def AST.inorderAST : AST → List Tok
  | .leaf s => [.Variable s]
  | .pow b p =>
    (if isOpNode b then [Tok.Paranthesis '('] ++ b.inorderAST ++ [Tok.Paranthesis ')']
     else b.inorderAST)
      ++ [Tok.Operator '^']
      ++ (if isOpNode p then [Tok.Paranthesis '('] ++ p.inorderAST ++ [Tok.Paranthesis ')']
          else p.inorderAST)
  | .node c lc rc =>
    (if isOpNode lc && decide (precedence (Tok.Operator c) > astPrec lc) then
        [Tok.Paranthesis '('] ++ lc.inorderAST ++ [Tok.Paranthesis ')']
     else lc.inorderAST)
      ++ [Tok.Operator c]
      ++ (if isOpNode rc && decide (precedence (Tok.Operator c) > astPrec rc) then
            [Tok.Paranthesis '('] ++ rc.inorderAST ++ [Tok.Paranthesis ')']
          else rc.inorderAST)

/-- The textual form of a token, as produced by the __str__ methods. -/
def tokStr : Tok → String
  | .Variable s => s
  | .Operator c => String.singleton c
  | .Paranthesis c => String.singleton c

/-- Embeds AST.__str__ (comsol_parser.py lines 329-330): the concatenation
of the textual forms of the in-order traversal.  This is the common
rendering core of both dialect generators. -/
def astToString (t : AST) : String :=
  String.join ((AST.inorderAST t).map tokStr)

/-- Embeds the regex substitution re.sub of a caret by a double star
(comsol_parser.py line 347): the pattern is a single literal character. -/
def caretToStars (s : String) : String :=
  s.data.foldl (fun acc c => if c = '^' then acc ++ "**" else acc.push c) ""

/-- Embeds generate_spice (comsol_parser.py lines 336-348).  The source
mutates the argument AST in place through the two replace_token calls and
then renders it; the model returns the rendered string together with the
mutated tree. -/
def generate_spice (ast : AST) : String × AST :=
  let a2 := (ast.replace_token "T_ABS" "(temp+273.15)").replace_token "T" "temp"
  (caretToStars (astToString a2), a2)

/-- The whitespace class of a Python regex (the characters matched by the
backslash-s class): space, tab, newline, carriage return, vertical tab and
form feed. -/
def isPySpace (c : Char) : Bool :=
  c = ' ' ∨ c = '\t' ∨ c = '\n' ∨ c = '\r' ∨ c = Char.ofNat 11 ∨ c = Char.ofNat 12

/-- Skip regex whitespace, then require the given character (one
whitespace-star-then-literal step of the COMSOL_ABS_TEMP_PAT pattern). -/
def chompWsChar (c : Char) (l : List Char) : Option (List Char) :=
  match l.dropWhile isPySpace with
  | [] => none
  | d :: rest => if d = c then some rest else none

/-- Matching of COMSOL_ABS_TEMP_PAT (comsol_parser.py line 5), the
absolute-temperature idiom with optional internal whitespace, at the head
of the character list; returns the remainder after the match. -/
def matchAbsTemp : List Char → Option (List Char)
  | '(' :: rest =>
    match chompWsChar 'T' rest with
    | none => none
    | some r1 =>
      match chompWsChar '/' r1 with
      | none => none
      | some r2 =>
        match chompWsChar '1' r2 with
        | none => none
        | some r3 =>
          match chompWsChar '[' r3 with
          | none => none
          | some r4 =>
            match chompWsChar 'K' r4 with
            | none => none
            | some r5 =>
              match chompWsChar ']' r5 with
              | none => none
              | some r6 => chompWsChar ')' r6
  | _ => none

/-- Leftmost non-overlapping substitution of the absolute-temperature idiom
by the neutral name, as re.sub does for COMSOL_ABS_TEMP_PAT.  Fuel is
structural; every step consumes at least one character. -/
def subAbsF : Nat → List Char → List Char
  | 0, l => l
  | _ + 1, [] => []
  | f + 1, c :: rest =>
    match matchAbsTemp (c :: rest) with
    | some rem => 'T' :: '_' :: 'A' :: 'B' :: 'S' :: subAbsF f rem
    | none => c :: subAbsF f rest

/-- The absolute-temperature substitution pass of parse_comsol. -/
def subAbsTemp (l : List Char) : List Char :=
  subAbsF l.length l

/-- Leftmost non-overlapping substitution of a literal pattern, as re.sub
does for COMSOL_TEMP_PAT (a regex whose every metacharacter is escaped, so
it matches one literal string).  Fuel is structural. -/
def subLitF (pat rep : List Char) : Nat → List Char → List Char
  | 0, l => l
  | _ + 1, [] => []
  | f + 1, c :: rest =>
    if pat.isPrefixOf (c :: rest) then rep ++ subLitF pat rep f ((c :: rest).drop pat.length)
    else c :: subLitF pat rep f rest

/-- Embeds parse_comsol (comsol_parser.py lines 350-363): substitute the
absolute-temperature idiom by T_ABS, then the Celsius idiom by T, then
tokenize and build the AST. -/
def parse_comsol (expr : String) : Option AST :=
  let e1 := subAbsTemp expr.data
  let e2 := subLitF ("((T-0[degC])/1[K])".data) ("T".data) e1.length e1
  match tokenizationChars e2 with
  | none => none
  | some ts => AST.ofTokens ts

/-- Modelled from the spec: the module-level function parse_spice is imported
by src/src/expr_parser.py from the parsers package but is absent from the
sources; per the spec it is the composition tokenizer, then infix-to-prefix,
then AST builder, directly on the expression with no temperature-idiom
rewrite.  The SPICE-dialect tokenizer of parse_spice.py (the one that
recognizes the double-star operator) is used, as SPICE input is written
with the double star. -/
def parse_spice_fn (expr : String) : Option AST :=
  match tokenizationS expr with
  | none => none
  | some (ts, _) => AST.ofTokens ts

/-- The tokenize-convert-build composition of the core pipeline
(tokenization of comsol_parser.py followed by the list branch of
AST.__init__); this is parse_comsol without the temperature-idiom
substitutions, used to state claims about parsing plain expressions. -/
def parseExpr (s : String) : Option AST :=
  match tokenization s with
  | none => none
  | some ts => AST.ofTokens ts

/-- Value of a nonempty all-digit character list as a decimal numeral. -/
def digitsToNatAux : List Char → Nat → Option Nat
  | [], acc => some acc
  | c :: rest, acc =>
    if c.isDigit then digitsToNatAux rest (acc * 10 + (c.toNat - 48)) else none

/-- Numeric reading of a leaf text: a nonnegative decimal literal (all the
numeric assertions of the claims use only such leaves). -/
def leafInt (s : String) : Option Int :=
  match s.data with
  | [] => none
  | l => (digitsToNatAux l 0).map Int.ofNat

/-- Standard arithmetic reading of an AST over the integers, used only to
state the numeric assertions the claims make about example expressions
(512 versus 64, and the value change caused by a dropped parenthesis).
Division does not occur in those examples and is left unevaluated. -/
def evalI : AST → Option Int
  | .leaf s => leafInt s
  | .pow b p =>
    match evalI b, evalI p with
    | some vb, some vp => if vp < 0 then none else some (vb ^ vp.toNat)
    | _, _ => none
  | .node c lc rc =>
    match evalI lc, evalI rc with
    | some vl, some vr =>
      if c = '+' then some (vl + vr)
      else if c = '-' then some (vl - vr)
      else if c = '*' then some (vl * vr)
      else none
    | _, _ => none

/-- Whether a character list ends with an opening parenthesis; the inputs
on which the unguarded lookahead of the tokenizers reads past the end. -/
def lastIsOpen : List Char → Bool
  | [] => false
  | [c] => c == '('
  | _ :: c :: rest => lastIsOpen (c :: rest)

/-- The leaf texts of an AST in left-to-right order. -/
def leaves : AST → List String
  | .leaf s => [s]
  | .pow b p => leaves b ++ leaves p
  | .node _ lc rc => leaves lc ++ leaves rc

/-- The shape of an AST: the tree structure with each interior node's
operator but with the leaf contents erased.  replace_token is claimed to
preserve it. -/
inductive Shape where
  | leafS : Shape
  | powS : Shape → Shape → Shape
  | nodeS : Char → Shape → Shape → Shape
deriving DecidableEq, Repr

/-- The shape of an AST. -/
def shape : AST → Shape
  | .leaf _ => .leafS
  | .pow b p => .powS (shape b) (shape p)
  | .node c lc rc => .nodeS c (shape lc) (shape rc)

/-- A store of token objects addressed by identity, modelling Python object
references: a token list held by a caller is a list of references into the
store, and in-place mutation of a token is an update of the store. -/
def TokStore : Type := Nat → Tok

/-- One iteration of the flipping loop of infix_to_prefix: the token object
referred to by n is replaced by its parenthesis-flipped form (tokens that
are not parentheses are left as they are, matching the is_paranthesis
guard). -/
def flipStep (st : TokStore) (n : Nat) : TokStore :=
  fun m => if m = n then flipPar (st n) else st m

/-- Embeds infix_to_prefix at the level of object references: the slice
token_list[::-1] copies the reference list but not the token objects, the
flipping loop then updates every referenced parenthesis token in the store,
and the postfix pass reads the updated store.  Returns the value result
together with the final store, which the caller's original list still
points into. -/
def infix_to_prefix_refs (refs : List Nat) (st : TokStore) :
    Option (List Tok) × TokStore :=
  let st2 := (refs.reverse).foldl flipStep st
  ((infix_to_postfix_conv ((refs.reverse).map st2)).map List.reverse, st2)

/-- The Python exceptions distinguished by the claims: ValueError with its
message, and an undistinguished runtime failure standing for the index and
attribute errors of the modelled pipeline. -/
inductive PyError where
  | valueError : String → PyError
  | runtimeError : PyError
deriving DecidableEq, Repr

/-- Decidable equality for Except results, used to state the claims about
raised errors concretely. -/
instance exceptDecEq {e a : Type} [DecidableEq e] [DecidableEq a] :
    DecidableEq (Except e a) := fun x y =>
  match x, y with
  | .ok u, .ok v =>
    if h : u = v then isTrue (by rw [h]) else isFalse (by intro hc; cases hc; exact h rfl)
  | .error u, .error v =>
    if h : u = v then isTrue (by rw [h]) else isFalse (by intro hc; cases hc; exact h rfl)
  | .ok _, .error _ => isFalse (by intro hc; cases hc)
  | .error _, .ok _ => isFalse (by intro hc; cases hc)

/-- The state of an ExprParser object (src/src/expr_parser.py lines 11-39):
the stored variable names, expression text, declared origin language, and
the parsed AST together with the dialect-specific stored strings. -/
structure ExprParser where
  varnames : List String
  expr : String
  initial_expr_lang : String
  ast : Option AST
  spice_expr : Option String
  comsol_expr : Option String
deriving DecidableEq, Repr

/-- ASCII model of str.casefold as used on the language tag (the dialect
tags are ASCII, for which casefold is lowercasing). -/
def asciiFold (s : String) : String :=
  String.mk (s.data.map Char.toLower)

/-- Embeds ExprParser.__init__ (src/src/expr_parser.py lines 12-39).  The
varnames type check is enforced by the Lean type.  The evaluator
construction is external per the spec and does not affect the stored
parser state.  A failure of the parsing pipeline inside the constructor is
the undistinguished runtime error.  A language tag whose casefold is
neither dialect raises ValueError. -/
def ExprParser.make (expr : String) (varnames : List String) (initial_lang : String) :
    Except PyError ExprParser :=
  if asciiFold initial_lang = "spice" then
    match parse_spice_fn expr with
    | some a => .ok ⟨varnames, expr, initial_lang, some a, some expr, none⟩
    | none => .error .runtimeError
  else if asciiFold initial_lang = "comsol" then
    match parse_comsol expr with
    | some a => .ok ⟨varnames, expr, initial_lang, some a, none, some expr⟩
    | none => .error .runtimeError
  else .error (.valueError "Language must be either spice or comsol")

/-- Embeds the method ExprParser.parse_spice (lines 107-118): raises
ValueError when the declared origin language is exactly the lowercase
comsol tag, otherwise reparses and stores the AST. -/
def ExprParser.parse_spiceM (p : ExprParser) : Except PyError (AST × ExprParser) :=
  if p.initial_expr_lang = "comsol" then
    .error (.valueError "parse_spice() cannot be called on comsol expressions!")
  else
    match parse_spice_fn p.expr with
    | some a =>
      .ok (a, ⟨p.varnames, p.expr, p.initial_expr_lang, some a, p.spice_expr, p.comsol_expr⟩)
    | none => .error .runtimeError

/-- Embeds the method ExprParser.parse_comsol (lines 120-131). -/
def ExprParser.parse_comsolM (p : ExprParser) : Except PyError (AST × ExprParser) :=
  if p.initial_expr_lang = "spice" then
    .error (.valueError "parse_comsol() cannot be called on spice expressions!")
  else
    match parse_comsol p.expr with
    | some a =>
      .ok (a, ⟨p.varnames, p.expr, p.initial_expr_lang, some a, p.spice_expr, p.comsol_expr⟩)
    | none => .error .runtimeError

/-- Embeds the method ExprParser.generate_spice (lines 133-143): when the
declared origin language is exactly the lowercase spice tag it returns the
stored spice expression (a None value is returned as such, not raised);
otherwise it runs the module generate_spice on the stored AST, which
mutates that AST in place. -/
def ExprParser.generate_spiceM (p : ExprParser) : Except PyError (Option String × ExprParser) :=
  if p.initial_expr_lang = "spice" then .ok (p.spice_expr, p)
  else
    match p.ast with
    | some a =>
      let sa := generate_spice a
      .ok (some sa.1, ⟨p.varnames, p.expr, p.initial_expr_lang, some sa.2, p.spice_expr,
        p.comsol_expr⟩)
    | none => .error .runtimeError

/-- C1: the round-trip identity fails on the code: the well-formed
expression 1-(2-3) (the same text in both dialects, containing no
temperature idiom) parses to the tree 1-(2-3), but the in-order rendering
shared by both dialect generators drops the semantically required
parenthesis pair around the right child of equal precedence and produces
1-2-3, which is neither the input nor the input with one outer parenthesis
pair added; the value changes from 2 to -4. -/
theorem C1_render_drops_required_parens :
    (parse_comsol "1-(2-3)").map astToString = some "1-2-3"
    ∧ "1-2-3" ≠ "1-(2-3)"
    ∧ "1-2-3" ≠ "(1-(2-3))"
    ∧ (parse_comsol "1-(2-3)").bind evalI = some 2
    ∧ (parse_comsol "1-2-3").bind evalI = some (-4) := by
  refine ⟨?_, ?_, ?_, ?_, ?_⟩ <;> decide

/-- C2: the tokenize, convert, build pipeline parses the caret
right-associatively and the other operators left-associatively: 2^3^2
yields the tree 2^(3^2) of value 512 and not (2^3)^2 of value 64, while
1-2-3, 8/4/2 group to the left and 1+2*3 follows precedence. -/
theorem C2_exponent_right_assoc :
    parseExpr "2^3^2" = some (.pow (.leaf "2") (.pow (.leaf "3") (.leaf "2")))
    ∧ (parseExpr "2^3^2").bind evalI = some 512
    ∧ parseExpr "2^3^2" ≠ some (.pow (.pow (.leaf "2") (.leaf "3")) (.leaf "2"))
    ∧ evalI (.pow (.pow (.leaf "2") (.leaf "3")) (.leaf "2")) = some 64
    ∧ parseExpr "1-2-3" = some (.node '-' (.node '-' (.leaf "1") (.leaf "2")) (.leaf "3"))
    ∧ parseExpr "8/4/2" = some (.node '/' (.node '/' (.leaf "8") (.leaf "4")) (.leaf "2"))
    ∧ parseExpr "1+2*3" = some (.node '+' (.leaf "1") (.node '*' (.leaf "2") (.leaf "3"))) := by
  refine ⟨?_, ?_, ?_, ?_, ?_, ?_, ?_⟩ <;> decide

/-- C3: the rendering is precedence-minimal in the claimed sense on the
dispositive inputs: parsing 1+2*3 yields the tree 1+(2*3) whose rendering
puts no parentheses around 2*3, and parsing (1+2)*3 yields the tree
(1+2)*3 whose rendering retains the parentheses around the strictly
lower-precedence left child 1+2. -/
theorem C3_precedence_minimization :
    (parseExpr "1+2*3").map astToString = some "1+2*3"
    ∧ (parseExpr "(1+2)*3").map astToString = some "(1+2)*3"
    ∧ parseExpr "1+2*3" = some (.node '+' (.leaf "1") (.node '*' (.leaf "2") (.leaf "3")))
    ∧ parseExpr "(1+2)*3" = some (.node '*' (.node '+' (.leaf "1") (.leaf "2")) (.leaf "3")) := by
  refine ⟨?_, ?_, ?_, ?_⟩ <;> decide

/-- C4: the comsol_parser.py tokenizer yields exactly the claimed tokens
for -3.14+x, but the parse_spice.py tokenizer skips the character after a
leading unary minus (its leading-minus test heads an elif chain, so the
bottom index increment runs a second time) and yields the operand (-.14)
instead of (-3.14). -/
theorem C4_unary_minus_tokenization :
    tokenization "-3.14+x" = some [.Variable "(-3.14)", .Operator '+', .Variable "x"]
    ∧ tokenizationS "-3.14+x"
        = some ([.Variable "(-.14)", .Operator '+', .Variable "x"], ["-.14"]) := by
  refine ⟨?_, ?_⟩ <;> decide

/-- C5 counterexample: the comsol_parser.py tokenizer has no handling of
the double star and emits two consecutive star operator tokens for 2**3,
with no caret token, contradicting the claim that every tokenizer
normalizes the double star to a single caret operator token. -/
theorem C5_counterexample :
    tokenization "2**3" = some [.Variable "2", .Operator '*', .Operator '*', .Variable "3"]
    ∧ Tok.Operator '^'
        ∉ [Tok.Variable "2", Tok.Operator '*', Tok.Operator '*', Tok.Variable "3"] := by
  refine ⟨?_, ?_⟩ <;> decide

/-- C5 amended: the parse_spice.py tokenizer recognizes the double star and
emits the canonical caret operator token for it, so the SPICE double star
and the COMSOL caret coincide internally on that path; the comsol_parser.py
tokenizer does not handle the double star (COMSOL-dialect input writes
exponentiation with the caret directly, which it tokenizes canonically). -/
theorem C5_amended_spice_normalizes :
    tokenizationS "2**3" = some ([.Variable "2", .Operator '^', .Variable "3"], ["2"])
    ∧ tokenizationS "(a+b)**2"
        = some ([.Paranthesis '(', .Variable "a", .Operator '+', .Variable "b",
            .Paranthesis ')', .Operator '^', .Variable "2"], ["a", "b"])
    ∧ tokenization "2^3" = some [.Variable "2", .Operator '^', .Variable "3"] := by
  refine ⟨?_, ?_, ?_⟩ <;> decide

/-- C6 counterexample: generate_spice is not free of effects on the AST: on
the single-leaf tree T it returns the string temp but leaves the tree
mutated to the leaf temp, so the AST is not unchanged between and after
render calls as claimed. -/
theorem C6_counterexample :
    generate_spice (AST.leaf "T") = ("temp", AST.leaf "temp")
    ∧ AST.leaf "temp" ≠ AST.leaf "T" := by
  refine ⟨?_, ?_⟩ <;> decide

/-- C7 counterexample: calling the SPICE-only render operation on a parser
whose declared origin dialect is comsol does not raise an invalid-operation
error; it succeeds and returns the converted string temp. -/
theorem C7_counterexample :
    ((ExprParser.make "T" ["T"] "comsol").bind ExprParser.generate_spiceM).map Prod.fst
      = .ok (some "temp") := by
  decide

/-- Every leaf text of a substituted tree is either the replacement or a
leaf text of the original tree different from the match. -/
theorem mem_leaves_replace {t : AST} {m r x : String}
    (h : x ∈ leaves (t.replace_token m r)) : x = r ∨ (x ∈ leaves t ∧ x ≠ m) := by
  induction t with
  | leaf s =>
    by_cases hs : s = m
    · simp [AST.replace_token, hs, leaves] at h
      exact Or.inl h
    · simp [AST.replace_token, hs, leaves] at h
      exact Or.inr ⟨by simp [leaves, h], by rw [h]; exact hs⟩
  | pow b p ihb ihp =>
    simp only [AST.replace_token, leaves, List.mem_append] at h
    rcases h with h | h
    · rcases ihb h with h2 | ⟨h2, h3⟩
      · exact Or.inl h2
      · exact Or.inr ⟨by simp [leaves, List.mem_append]; exact Or.inl h2, h3⟩
    · rcases ihp h with h2 | ⟨h2, h3⟩
      · exact Or.inl h2
      · exact Or.inr ⟨by simp [leaves, List.mem_append]; exact Or.inr h2, h3⟩
  | node c lc rc ihl ihr =>
    simp only [AST.replace_token, leaves, List.mem_append] at h
    rcases h with h | h
    · rcases ihl h with h2 | ⟨h2, h3⟩
      · exact Or.inl h2
      · exact Or.inr ⟨by simp [leaves, List.mem_append]; exact Or.inl h2, h3⟩
    · rcases ihr h with h2 | ⟨h2, h3⟩
      · exact Or.inl h2
      · exact Or.inr ⟨by simp [leaves, List.mem_append]; exact Or.inr h2, h3⟩

/-- Substitution with a match that occurs in no leaf leaves the tree
unchanged. -/
theorem replace_token_self {t : AST} {m r : String}
    (h : ∀ x ∈ leaves t, x ≠ m) : t.replace_token m r = t := by
  induction t with
  | leaf s =>
    have hs : s ≠ m := h s (by simp [leaves])
    simp [AST.replace_token, hs]
  | pow b p ihb ihp =>
    have hb := ihb (fun x hx => h x (by simp [leaves, List.mem_append]; exact Or.inl hx))
    have hp := ihp (fun x hx => h x (by simp [leaves, List.mem_append]; exact Or.inr hx))
    simp [AST.replace_token, hb, hp]
  | node c lc rc ihl ihr =>
    have hl := ihl (fun x hx => h x (by simp [leaves, List.mem_append]; exact Or.inl hx))
    have hr := ihr (fun x hx => h x (by simp [leaves, List.mem_append]; exact Or.inr hx))
    simp [AST.replace_token, hl, hr]

/-- C6 amended: generate_spice is a deterministic function of the AST, and
a second call on the tree left behind by a first call returns the same
string and the same tree; but the first call does mutate the AST in place
(the T_ABS and T substitutions), so the tree is unchanged between the
calls only when it contains no such leaves. -/
theorem C6_amended_repeat_render (a : AST) :
    generate_spice (generate_spice a).2 = generate_spice a := by
  have key : ∀ x ∈ leaves (generate_spice a).2, x ≠ "T_ABS" ∧ x ≠ "T" := by
    intro x hx
    simp only [generate_spice] at hx
    rcases mem_leaves_replace hx with h1 | ⟨h1, hne⟩
    · subst h1; exact ⟨by decide, by decide⟩
    · rcases mem_leaves_replace h1 with h2 | ⟨_, hne2⟩
      · subst h2; exact ⟨by decide, hne⟩
      · exact ⟨hne2, hne⟩
  have h1 : ((generate_spice a).2).replace_token "T_ABS" "(temp+273.15)"
      = (generate_spice a).2 :=
    replace_token_self (fun x hx => (key x hx).1)
  have h2 : ((generate_spice a).2).replace_token "T" "temp" = (generate_spice a).2 :=
    replace_token_self (fun x hx => (key x hx).2)
  show generate_spice (generate_spice a).2 = generate_spice a
  have : generate_spice (generate_spice a).2
      = (caretToStars (astToString (generate_spice a).2), (generate_spice a).2) := by
    simp only [generate_spice] at h1 h2 ⊢
    rw [h1, h2]
  rw [this]
  simp only [generate_spice]

/-- C6 witness: the repeat-render identity applied at the single-leaf
tree T. -/
theorem C6_witness :
    generate_spice (generate_spice (AST.leaf "T")).2 = generate_spice (AST.leaf "T") :=
  C6_amended_repeat_render (AST.leaf "T")

/-- C8: replace_token never changes the tree shape (the node set, each
interior node's operator and the parent-child structure) and rewrites
exactly the leaves whose text equals the match, in place, leaving every
other leaf unchanged. -/
theorem C8_replace_token_frame (t : AST) (m r : String) :
    shape (t.replace_token m r) = shape t
    ∧ leaves (t.replace_token m r) = (leaves t).map (fun x => if x = m then r else x) := by
  induction t with
  | leaf s =>
    by_cases hs : s = m <;> simp [AST.replace_token, shape, leaves, hs]
  | pow b p ihb ihp =>
    simp [AST.replace_token, shape, leaves, ihb.1, ihb.2, ihp.1, ihp.2]
  | node c lc rc ihl ihr =>
    simp [AST.replace_token, shape, leaves, ihl.1, ihl.2, ihr.1, ihr.2]

/-- C8 witness: the frame property applied at a concrete two-leaf tree. -/
theorem C8_witness :
    shape ((AST.node '+' (.leaf "T") (.leaf "x")).replace_token "T" "temp")
      = shape (AST.node '+' (.leaf "T") (.leaf "x"))
    ∧ leaves ((AST.node '+' (.leaf "T") (.leaf "x")).replace_token "T" "temp")
      = (leaves (AST.node '+' (.leaf "T") (.leaf "x"))).map
          (fun x => if x = "T" then "temp" else x) :=
  C8_replace_token_frame (AST.node '+' (.leaf "T") (.leaf "x")) "T" "temp"

/-- An option whose isSome is false is none. -/
theorem optEqNone {α : Type} {o : Option α} (h : o.isSome = false) : o = none := by
  cases o with
  | none => rfl
  | some a => simp at h

/-- The comsol_parser.py tokenization loop, run with enough fuel, returns a
token list exactly when the remaining input does not end with an opening
parenthesis (the unguarded lookahead after an opening parenthesis is the
only failure). -/
theorem tokLoopF_isSome :
    ∀ (f : Nat) (l : List Char), l.length ≤ f → ∀ (crt : String) (tokens : List Tok),
      (tokLoopF f l crt tokens).isSome = !(lastIsOpen l) := by
  intro f
  induction f with
  | zero =>
    intro l hl crt tokens
    have hnil : l = [] := List.eq_nil_of_length_eq_zero (Nat.le_zero.mp hl)
    subst hnil
    rfl
  | succ n ih =>
    intro l hl crt tokens
    match l with
    | [] => rfl
    | c :: rest =>
      simp only [tokLoopF]
      by_cases h1 : c = '*' ∨ c = '^' ∨ c = '+' ∨ c = '-' ∨ c = '/'
      · rw [if_pos h1]
        cases rest with
        | nil =>
          have hc : (c == '(') = false := by
            rcases h1 with h | h | h | h | h <;> subst h <;> rfl
          simp [tokLoopF, lastIsOpen, hc]
        | cons d rest2 =>
          have hlen : (d :: rest2).length ≤ n := by
            simp only [List.length_cons] at hl ⊢; omega
          rw [ih (d :: rest2) hlen]
          rfl
      · rw [if_neg h1]
        by_cases h2 : c = '('
        · rw [if_pos h2]
          cases rest with
          | nil => subst h2; simp [lastIsOpen]
          | cons d rest2 =>
            dsimp only
            by_cases h3 : d = '-'
            · rw [if_pos h3]
              cases rest2 with
              | nil =>
                subst h3
                simp [tokLoopF, lastIsOpen]
              | cons e rest3 =>
                have hlen : (e :: rest3).length ≤ n := by
                  simp only [List.length_cons] at hl ⊢; omega
                rw [ih (e :: rest3) hlen]
                rfl
            · rw [if_neg h3]
              have hlen : (d :: rest2).length ≤ n := by
                simp only [List.length_cons] at hl ⊢; omega
              rw [ih (d :: rest2) hlen]
              rfl
        · rw [if_neg h2]
          have hc : (c == '(') = false := by
            simp [h2]
          by_cases h3 : c = ')'
          · rw [if_pos h3]
            cases rest with
            | nil => simp [tokLoopF, lastIsOpen, hc]
            | cons d rest2 =>
              have hlen : (d :: rest2).length ≤ n := by
                simp only [List.length_cons] at hl ⊢; omega
              rw [ih (d :: rest2) hlen]
              rfl
          · rw [if_neg h3]
            by_cases h4 : c.toNat ≤ 0x20
            · rw [if_pos h4]
              cases rest with
              | nil => simp [tokLoopF, lastIsOpen, hc]
              | cons d rest2 =>
                have hlen : (d :: rest2).length ≤ n := by
                  simp only [List.length_cons] at hl ⊢; omega
                rw [ih (d :: rest2) hlen]
                rfl
            · rw [if_neg h4]
              cases rest with
              | nil => simp [lastIsOpen, hc]
              | cons d rest2 =>
                have hlen : (d :: rest2).length ≤ n := by
                  simp only [List.length_cons] at hl ⊢; omega
                rw [ih (d :: rest2) hlen]
                rfl

/-- The parse_spice.py tokenization loop, run with enough fuel, returns its
pair exactly when the remaining input does not end with an opening
parenthesis. -/
theorem tokLoopSF_isSome :
    ∀ (f : Nat) (l : List Char), l.length ≤ f →
      ∀ (crt : String) (tokens : List Tok) (vars : List String),
        (tokLoopSF f l crt tokens vars).isSome = !(lastIsOpen l) := by
  intro f
  induction f with
  | zero =>
    intro l hl crt tokens vars
    have hnil : l = [] := List.eq_nil_of_length_eq_zero (Nat.le_zero.mp hl)
    subst hnil
    rfl
  | succ n ih =>
    intro l hl crt tokens vars
    match l with
    | [] => rfl
    | c :: rest =>
      simp only [tokLoopSF]
      by_cases h1 : c = '*'
      · rw [if_pos h1]
        cases rest with
        | nil => subst h1; simp [lastIsOpen]
        | cons d rest2 =>
          dsimp only
          by_cases h2 : d = '*'
          · rw [if_pos h2]
            cases rest2 with
            | nil =>
              subst h2
              simp [tokLoopSF, lastIsOpen]
            | cons e rest3 =>
              have hlen : (e :: rest3).length ≤ n := by
                simp only [List.length_cons] at hl ⊢; omega
              rw [ih (e :: rest3) hlen]
              rfl
          · rw [if_neg h2]
            have hlen : (d :: rest2).length ≤ n := by
              simp only [List.length_cons] at hl ⊢; omega
            rw [ih (d :: rest2) hlen]
            rfl
      · rw [if_neg h1]
        by_cases h2 : c = '+' ∨ c = '-' ∨ c = '/'
        · rw [if_pos h2]
          cases rest with
          | nil =>
            have hc : (c == '(') = false := by
              rcases h2 with h | h | h <;> subst h <;> rfl
            simp [tokLoopSF, lastIsOpen, hc]
          | cons d rest2 =>
            have hlen : (d :: rest2).length ≤ n := by
              simp only [List.length_cons] at hl ⊢; omega
            rw [ih (d :: rest2) hlen]
            rfl
        · rw [if_neg h2]
          by_cases h3 : c = '('
          · rw [if_pos h3]
            cases rest with
            | nil => subst h3; simp [lastIsOpen]
            | cons d rest2 =>
              dsimp only
              by_cases h4 : d = '-'
              · rw [if_pos h4]
                cases rest2 with
                | nil =>
                  subst h4
                  simp [tokLoopSF, lastIsOpen]
                | cons e rest3 =>
                  have hlen : (e :: rest3).length ≤ n := by
                    simp only [List.length_cons] at hl ⊢; omega
                  rw [ih (e :: rest3) hlen]
                  rfl
              · rw [if_neg h4]
                have hlen : (d :: rest2).length ≤ n := by
                  simp only [List.length_cons] at hl ⊢; omega
                rw [ih (d :: rest2) hlen]
                rfl
          · rw [if_neg h3]
            have hc : (c == '(') = false := by
              simp [h3]
            by_cases h5 : c = ')'
            · rw [if_pos h5]
              cases rest with
              | nil => simp [tokLoopSF, lastIsOpen, hc]
              | cons d rest2 =>
                have hlen : (d :: rest2).length ≤ n := by
                  simp only [List.length_cons] at hl ⊢; omega
                rw [ih (d :: rest2) hlen]
                rfl
            · rw [if_neg h5]
              by_cases h6 : c.toNat ≤ 0x20
              · rw [if_pos h6]
                cases rest with
                | nil => simp [tokLoopSF, lastIsOpen, hc]
                | cons d rest2 =>
                  have hlen : (d :: rest2).length ≤ n := by
                    simp only [List.length_cons] at hl ⊢; omega
                  rw [ih (d :: rest2) hlen]
                  rfl
              · rw [if_neg h6]
                cases rest with
                | nil => simp [lastIsOpen, hc]
                | cons d rest2 =>
                  have hlen : (d :: rest2).length ≤ n := by
                    simp only [List.length_cons] at hl ⊢; omega
                  rw [ih (d :: rest2) hlen]
                  rfl

/-- C7 amended: only the parse methods enforce the dialect, by comparing
the stored language tag for exact equality with the lowercase name of the
other dialect; the generate methods never raise an invalid-operation
error, generate_spice on a spice-origin parser returning the stored
expression unchanged; and construction with a language tag whose casefold
is neither dialect name raises ValueError. -/
theorem C7_amended_dialect_guards :
    (∀ p : ExprParser, p.initial_expr_lang = "comsol" →
        p.parse_spiceM
          = .error (.valueError "parse_spice() cannot be called on comsol expressions!"))
    ∧ (∀ p : ExprParser, p.initial_expr_lang = "spice" →
        p.parse_comsolM
          = .error (.valueError "parse_comsol() cannot be called on spice expressions!"))
    ∧ (∀ (e : String) (v : List String) (lang : String),
        asciiFold lang ≠ "spice" → asciiFold lang ≠ "comsol" →
          ExprParser.make e v lang
            = .error (.valueError "Language must be either spice or comsol"))
    ∧ (∀ p : ExprParser, p.initial_expr_lang = "spice" →
        p.generate_spiceM = .ok (p.spice_expr, p)) := by
  refine ⟨?_, ?_, ?_, ?_⟩
  · intro p h
    simp [ExprParser.parse_spiceM, h]
  · intro p h
    simp [ExprParser.parse_comsolM, h]
  · intro e v lang h1 h2
    simp [ExprParser.make, h1, h2]
  · intro p h
    simp [ExprParser.generate_spiceM, h]

/-- C7 witness: the guards applied at a concrete comsol-origin parser
state and at the concrete unsupported language tag matlab. -/
theorem C7_witness :
    (ExprParser.mk [] "" "comsol" none none none).parse_spiceM
      = .error (.valueError "parse_spice() cannot be called on comsol expressions!")
    ∧ ExprParser.make "x" [] "matlab"
      = .error (.valueError "Language must be either spice or comsol")
    ∧ (ExprParser.mk [] "e" "spice" none (some "e") none).generate_spiceM
      = .ok (some "e", ExprParser.mk [] "e" "spice" none (some "e") none) :=
  ⟨C7_amended_dialect_guards.1 (ExprParser.mk [] "" "comsol" none none none) rfl,
   C7_amended_dialect_guards.2.2.1 "x" [] "matlab" (by decide) (by decide),
   C7_amended_dialect_guards.2.2.2 (ExprParser.mk [] "e" "spice" none (some "e") none) rfl⟩

/-- Applying the flipping loop to a list of references not containing n
leaves the token object at n unchanged. -/
theorem foldl_flipStep_not_mem (L : List Nat) (st : TokStore) (n : Nat)
    (h : n ∉ L) : (L.foldl flipStep st) n = st n := by
  induction L generalizing st with
  | nil => rfl
  | cons a L2 ih =>
    have hna : n ≠ a := fun he => h (he ▸ List.mem_cons_self a L2)
    have hnL : n ∉ L2 := fun hm => h (List.mem_cons_of_mem a hm)
    simp only [List.foldl_cons]
    rw [ih (flipStep st a) hnL]
    simp [flipStep, hna]

/-- Applying the flipping loop to a duplicate-free list of references flips
the token object at each referenced position exactly once. -/
theorem foldl_flipStep_mem (L : List Nat) (st : TokStore) (n : Nat)
    (hnd : L.Nodup) (h : n ∈ L) : (L.foldl flipStep st) n = flipPar (st n) := by
  induction L generalizing st with
  | nil => cases h
  | cons a L2 ih =>
    have hnd2 : L2.Nodup := (List.nodup_cons.mp hnd).2
    have hna : a ∉ L2 := (List.nodup_cons.mp hnd).1
    simp only [List.foldl_cons]
    rcases List.mem_cons.mp h with he | hm
    · subst he
      rw [foldl_flipStep_not_mem L2 (flipStep st n) n hna]
      simp [flipStep]
    · have hne : n ≠ a := fun he => hna (he ▸ hm)
      rw [ih (flipStep st a) hnd2 hm]
      simp [flipStep, hne]

/-- C10: infix_to_prefix flips, through the shared references of the
shallow reversed copy, every parenthesis token of the caller's original
infix token list: after the call the store holds the inverted
open/close direction at each such reference, so the conversion is not
referentially transparent in its input; its value result is that of the
pure reading of the updated tokens. -/
theorem C10_prefix_flips_shared_parens :
    (∀ (refs : List Nat) (st : TokStore) (n : Nat) (c : Char),
        refs.Nodup → n ∈ refs → st n = .Paranthesis c →
          (infix_to_prefix_refs refs st).2 n
            = .Paranthesis (if c = '(' then ')' else '('))
    ∧ (∀ (refs : List Nat) (st : TokStore),
        refs.Nodup →
          (infix_to_prefix_refs refs st).1 = infix_to_prefix_conv (refs.map st)) := by
  constructor
  · intro refs st n c hnd hmem hst
    have hnd2 : refs.reverse.Nodup := List.nodup_reverse.mpr hnd
    have hmem2 : n ∈ refs.reverse := List.mem_reverse.mpr hmem
    show (refs.reverse.foldl flipStep st) n = _
    rw [foldl_flipStep_mem refs.reverse st n hnd2 hmem2, hst]
    simp [flipPar]
  · intro refs st hnd
    have hnd2 : refs.reverse.Nodup := List.nodup_reverse.mpr hnd
    show (infix_to_postfix_conv ((refs.reverse).map ((refs.reverse).foldl flipStep st))).map
        List.reverse = infix_to_prefix_conv (refs.map st)
    have hmap : (refs.reverse).map ((refs.reverse).foldl flipStep st)
        = ((refs.map st).reverse).map flipPar := by
      rw [← List.map_reverse, List.map_map]
      apply List.map_congr_left
      intro a ha
      exact foldl_flipStep_mem refs.reverse st a hnd2 ha
    rw [hmap]
    rfl

/-- C10 witness: the flipping effect applied at a concrete store whose
reference 0 holds an opening parenthesis token. -/
theorem C10_witness :
    (infix_to_prefix_refs [0, 1, 2]
        (fun n => if n = 0 then Tok.Paranthesis '(' else Tok.Variable "x")).2 0
      = Tok.Paranthesis ')' := by
  have h := C10_prefix_flips_shared_parens.1 [0, 1, 2]
    (fun n => if n = 0 then Tok.Paranthesis '(' else Tok.Variable "x") 0 '('
    (by decide) (by decide) rfl
  simpa using h

/-- C9 counterexample: the claim's totality clause fails on the
comsol_parser.py tokenizer: the single-character input consisting of the
minus sign contains no opening parenthesis at all (so every opening
parenthesis is vacuously followed by a further character), yet the
tokenizer fails, because after consuming the leading unary minus it reads
the character at position 1 unconditionally. -/
theorem C9_counterexample :
    tokenization "-" = none ∧ lastIsOpen "-".data = false := by
  refine ⟨?_, ?_⟩ <;> decide

/-- C9 amended: the comsol_parser.py tokenizer fails exactly on the inputs
whose last character is an opening parenthesis, plus the single-character
minus input; the parse_spice.py tokenizer is total on every input in which
every opening parenthesis is followed by a further character, and fails on
every input ending in an opening parenthesis except the two-character input
minus-then-parenthesis, where the leading-minus branch skips the
parenthesis entirely and the empty token list is returned. -/
theorem C9_amended_tokenizer_totality :
    (∀ s : String, lastIsOpen s.data = true → tokenization s = none)
    ∧ (∀ s : String, lastIsOpen s.data = false → s.data ≠ ['-'] →
        (tokenization s).isSome = true)
    ∧ (∀ s : String, lastIsOpen s.data = false → (tokenizationS s).isSome = true)
    ∧ (∀ s : String, lastIsOpen s.data = true → s.data ≠ ['-', '('] →
        tokenizationS s = none) := by
  refine ⟨?_, ?_, ?_, ?_⟩
  · intro s h
    show tokenizationChars s.data = none
    match hd : s.data with
    | [] => rw [hd] at h; simp [lastIsOpen] at h
    | c :: rest =>
      rw [hd] at h
      simp only [tokenizationChars]
      by_cases h1 : c = '-'
      · rw [if_pos h1]
        cases rest with
        | nil =>
          exfalso
          subst h1
          simp [lastIsOpen] at h
        | cons d rest2 =>
          apply optEqNone
          show (tokLoopF (d :: rest2).length (d :: rest2) "-" []).isSome = false
          rw [tokLoopF_isSome (d :: rest2).length (d :: rest2) le_rfl]
          have : lastIsOpen (c :: d :: rest2) = lastIsOpen (d :: rest2) := rfl
          rw [this] at h
          simp [h]
      · rw [if_neg h1]
        apply optEqNone
        show (tokLoopF (c :: rest).length (c :: rest) "" []).isSome = false
        rw [tokLoopF_isSome (c :: rest).length (c :: rest) le_rfl]
        simp [h]
  · intro s h hne
    show (tokenizationChars s.data).isSome = true
    match hd : s.data with
    | [] => rfl
    | c :: rest =>
      rw [hd] at h hne
      simp only [tokenizationChars]
      by_cases h1 : c = '-'
      · rw [if_pos h1]
        cases rest with
        | nil => exfalso; exact hne (by rw [h1])
        | cons d rest2 =>
          show (tokLoopF (d :: rest2).length (d :: rest2) "-" []).isSome = true
          rw [tokLoopF_isSome (d :: rest2).length (d :: rest2) le_rfl]
          have : lastIsOpen (c :: d :: rest2) = lastIsOpen (d :: rest2) := rfl
          rw [this] at h
          simp [h]
      · rw [if_neg h1]
        show (tokLoopF (c :: rest).length (c :: rest) "" []).isSome = true
        rw [tokLoopF_isSome (c :: rest).length (c :: rest) le_rfl]
        simp [h]
  · intro s h
    show (tokenizationSChars s.data).isSome = true
    match hd : s.data with
    | [] => rfl
    | c :: rest =>
      rw [hd] at h
      simp only [tokenizationSChars]
      by_cases h1 : c = '-'
      · rw [if_pos h1]
        cases rest with
        | nil => rfl
        | cons d rest2 =>
          dsimp only
          cases rest2 with
          | nil => rfl
          | cons e rest3 =>
            show (tokLoopSF (e :: rest3).length (e :: rest3) "-" [] []).isSome = true
            rw [tokLoopSF_isSome (e :: rest3).length (e :: rest3) le_rfl]
            have h2 : lastIsOpen (c :: d :: e :: rest3) = lastIsOpen (e :: rest3) := rfl
            rw [h2] at h
            simp [h]
      · rw [if_neg h1]
        show (tokLoopSF (c :: rest).length (c :: rest) "" [] []).isSome = true
        rw [tokLoopSF_isSome (c :: rest).length (c :: rest) le_rfl]
        simp [h]
  · intro s h hne
    show tokenizationSChars s.data = none
    match hd : s.data with
    | [] => rw [hd] at h; simp [lastIsOpen] at h
    | c :: rest =>
      rw [hd] at h hne
      simp only [tokenizationSChars]
      by_cases h1 : c = '-'
      · rw [if_pos h1]
        cases rest with
        | nil =>
          exfalso
          subst h1
          simp [lastIsOpen] at h
        | cons d rest2 =>
          dsimp only
          cases rest2 with
          | nil =>
            exfalso
            subst h1
            have hd2 : (d == '(') = true := h
            have : d = '(' := by simpa using hd2
            exact hne (by rw [this])
          | cons e rest3 =>
            apply optEqNone
            show (tokLoopSF (e :: rest3).length (e :: rest3) "-" [] []).isSome = false
            rw [tokLoopSF_isSome (e :: rest3).length (e :: rest3) le_rfl]
            have h2 : lastIsOpen (c :: d :: e :: rest3) = lastIsOpen (e :: rest3) := rfl
            rw [h2] at h
            simp [h]
      · rw [if_neg h1]
        apply optEqNone
        show (tokLoopSF (c :: rest).length (c :: rest) "" [] []).isSome = false
        rw [tokLoopSF_isSome (c :: rest).length (c :: rest) le_rfl]
        simp [h]

/-- C9 witness: the amended totality statement applied at concrete inputs:
a two-open-parenthesis input fails, a balanced input succeeds for both
tokenizers, and an input ending in an opening parenthesis fails for the
parse_spice.py tokenizer. -/
theorem C9_witness :
    tokenization "((" = none
    ∧ (tokenization "(1)").isSome = true
    ∧ (tokenizationS "ab").isSome = true
    ∧ tokenizationS "x(" = none :=
  ⟨C9_amended_tokenizer_totality.1 "((" (by decide),
   C9_amended_tokenizer_totality.2.1 "(1)" (by decide) (by decide),
   C9_amended_tokenizer_totality.2.2.1 "ab" (by decide),
   C9_amended_tokenizer_totality.2.2.2 "x(" (by decide) (by decide)⟩
